import Mathlib

/-!
Verification of the report classification and statistics engine of the
DS2-Project analysis scripts (`src/analysis/parsey.py`, function
`parse_report`, together with its near-duplicate in `src/analysis/main.py`).

The engine takes one run's scheduled crashes and reported crashes,
classifies every reported crash as correct / duplicated / wrong, computes
the theoretically expected number of correct detections (sequential or
catastrophe failure model), and derives the run's statistics (detection
rate, boolean verdict, detection-delay mean / stdev / first / last with
`-1` sentinels for degenerate samples).

Python numbers (JSON numbers, `int` arithmetic and true division `/`) are
modelled by `ℚ`; the sample standard deviation, whose value needs a square
root, lives in `ℝ`.  A computation that raises an exception in Python
(`ZeroDivisionError` in the rate computation) is modelled by `Option`:
`none` is the raised exception.  Python dicts are modelled by association
lists in insertion order, with `dictInsert` reproducing dict-assignment
semantics (an existing key keeps its position and gets the new value, a
new key is appended at the end).
-/

/-- Node identifiers (`node`, `reporter` fields of the JSON record). -/
abbrev NodeId := ℕ

/-- One entry of `result.expected_crashes`: node `node` is scheduled to
crash at simulated time `delta`. -/
structure ScheduledCrash where
  node : NodeId
  delta : ℚ
deriving DecidableEq, Repr

/-- One entry of `result.reported_crashes`: `reporter` observed `node` as
crashed at time `delta`. -/
structure ReportedCrash where
  node : NodeId
  reporter : NodeId
  delta : ℚ
deriving DecidableEq, Repr

/-- The `NodeAndReporter` named tuple of `parsey.py`. -/
abbrev DetectionKey := NodeId × NodeId

/-- Lookup in an association list modelling a Python dict: value of the
first entry carrying the key (`m[k]`, and `k in m` is `isSome`). -/
def lookupKey {α β : Type} [BEq α] (m : List (α × β)) (k : α) : Option β :=
  (m.find? (fun p => p.1 == k)).map Prod.snd

/-- `k in m` for an association list modelling a Python dict. -/
def containsKey {α β : Type} [BEq α] (m : List (α × β)) (k : α) : Bool :=
  m.any (fun p => p.1 == k)

/-- Python dict assignment `m[k] = v`: if `k` is present its entry keeps
its position and receives value `v`, otherwise `(k, v)` is appended. -/
def dictInsert (m : List (NodeId × ℚ)) (k : NodeId) (v : ℚ) : List (NodeId × ℚ) :=
  if containsKey m k then m.map (fun p => if p.1 == k then (k, v) else p)
  else m ++ [(k, v)]

/-- `expected_crashes_map = {e['node']: e['delta'] for e in expected_crashes}`
(parsey.py line 117): a dict comprehension, so a later entry with the same
node silently overwrites an earlier one. -/
def expectedCrashesMap (es : List ScheduledCrash) : List (NodeId × ℚ) :=
  es.foldl (fun m e => dictInsert m e.node e.delta) []

/-- The condition of parsey.py line 132:
`node in expected_crashes_map and delta >= expected_crashes_map[node]`. -/
def isEligible (m : List (NodeId × ℚ)) (c : ReportedCrash) : Bool :=
  match lookupKey m c.node with
  | some sd => decide (sd ≤ c.delta)
  | none => false

/-- The classifier's three collections (parsey.py lines 120-122):
`correct_crashes` is a dict keyed by `NodeAndReporter` (association list in
insertion order), `duplicated_crashes` and `wrong_crashes` are lists. -/
structure ClassifyState where
  correct : List (DetectionKey × ℚ)
  duplicated : List ReportedCrash
  wrong : List ReportedCrash
deriving DecidableEq, Repr

/-- One iteration of the classification loop (parsey.py lines 125-144). -/
def classifyStep (m : List (NodeId × ℚ)) (s : ClassifyState) (c : ReportedCrash) :
    ClassifyState :=
  if isEligible m c then
    if containsKey s.correct (c.node, c.reporter) = false then
      { s with correct := s.correct ++ [((c.node, c.reporter), c.delta)] }
    else
      { s with duplicated := s.duplicated ++ [c] }
  else
    { s with wrong := s.wrong ++ [c] }

/-- The classification loop started from an arbitrary state. -/
def classifyFrom (m : List (NodeId × ℚ)) (s : ClassifyState) (rs : List ReportedCrash) :
    ClassifyState :=
  rs.foldl (classifyStep m) s

/-- Full classification of a run's reported crashes (parsey.py lines 120-144). -/
def classify (m : List (NodeId × ℚ)) (rs : List ReportedCrash) : ClassifyState :=
  classifyFrom m ⟨[], [], []⟩ rs

/-- `n_expected_detected` (parsey.py lines 150-155): catastrophe model
`n_scheduled * (n_nodes - n_scheduled)`, sequential model
`n_scheduled * n_nodes - n_scheduled * (n_scheduled + 1) / 2` (Python true
division, hence a rational value). -/
def expectedDetections (catastrophe : Bool) (nScheduled nNodes : ℕ) : ℚ :=
  if catastrophe then (nScheduled : ℚ) * ((nNodes : ℚ) - (nScheduled : ℚ))
  else (nScheduled : ℚ) * (nNodes : ℚ) - (nScheduled : ℚ) * ((nScheduled : ℚ) + 1) / 2

/-- `rate_detected_crashes = n_detected / n_expected_detected`
(parsey.py line 160): `none` models the `ZeroDivisionError` Python raises
when the expectation is zero. -/
def rateDetected (nDetected : ℕ) (nExpected : ℚ) : Option ℚ :=
  if nExpected = 0 then none else some ((nDetected : ℚ) / nExpected)

/-- `correct` (parsey.py line 163): the run's boolean verdict. -/
def correctVerdict (nExpected : ℚ) (nDetected nDuplicated nWrong nReappeared : ℕ) : Bool :=
  decide (nExpected = (nDetected : ℚ)) && decide (nDuplicated = 0)
    && decide (nWrong = 0) && decide (nReappeared = 0)

/-- Detection delays (parsey.py lines 167-172): for each retained correct
detection, `delta - expected_crashes_map[node]`, in dict insertion order. -/
def delaysOf (m : List (NodeId × ℚ)) (correct : List (DetectionKey × ℚ)) : List ℚ :=
  correct.map (fun p => p.2 - ((lookupKey m p.1.1).getD 0))

/-- `statistics.mean` with the engine's sentinel policy (parsey.py lines
173-177): mean of the sample, or `-1` when the sample is empty (the
`StatisticsError` branch). -/
def meanOrSentinel (xs : List ℚ) : ℚ :=
  if xs = [] then -1 else xs.sum / (xs.length : ℚ)

/-- `min(...)` with the sentinel for an empty sample (parsey.py lines 185-191). -/
def minOrSentinel (xs : List ℚ) : ℚ :=
  match xs with
  | [] => -1
  | x :: t => t.foldl min x

/-- `max(...)` with the sentinel for an empty sample (parsey.py lines 185-191). -/
def maxOrSentinel (xs : List ℚ) : ℚ :=
  match xs with
  | [] => -1
  | x :: t => t.foldl max x

/-- Sample mean, used inside the sample standard deviation. -/
def sampleMean (xs : List ℚ) : ℚ := xs.sum / (xs.length : ℚ)

/-- `statistics.stdev`: square root of the unbiased sample variance.
Defined on `ℝ` because of the square root. -/
noncomputable def sampleStdev (xs : List ℚ) : ℝ :=
  Real.sqrt ((xs.map (fun x => ((x : ℝ) - (sampleMean xs : ℝ)) ^ 2)).sum
    / ((xs.length : ℝ) - 1))

/-- `statistics.stdev` with the engine's sentinel policy (parsey.py lines
178-182): `stdev` raises `StatisticsError` on a sample of fewer than two
points, and the engine turns that into `-1`. -/
noncomputable def stdevOrSentinel (xs : List ℚ) : ℝ :=
  if xs.length < 2 then -1 else sampleStdev xs

/-- The part of one input record that the classification and statistics
engine reads (`settings.number_of_nodes`, `settings.simulate_catastrophe`,
`result.expected_crashes`, `result.reported_crashes`, and the length of
the optional `result.reappeared_nodes`, 0 when absent). -/
structure RunInput where
  n_nodes : ℕ
  simulate_catastrophe : Bool
  expected_crashes : List ScheduledCrash
  reported_crashes : List ReportedCrash
  n_reappeared : ℕ
deriving DecidableEq, Repr

/-- The scheduled-crash map of a run. -/
def scheduledMapOf (inp : RunInput) : List (NodeId × ℚ) :=
  expectedCrashesMap inp.expected_crashes

/-- The classified crashes of a run. -/
def classifiedOf (inp : RunInput) : ClassifyState :=
  classify (scheduledMapOf inp) inp.reported_crashes

/-- The statistics fields of the `Experiment` record that parse_report
computes from the classification (parsey.py lines 146-234), except
`detect_time_stdev`, which lives in `ℝ` and is kept as the separate
function `stdevOrSentinel` applied to the same delay sample. -/
structure RunStats where
  correct : Bool
  n_scheduled : ℕ
  n_expected_detected : ℚ
  n_correctly_detected : ℕ
  n_duplicated : ℕ
  n_wrong : ℕ
  n_reappeared : ℕ
  rate_detected : ℚ
  detect_time_average : ℚ
  detect_time_first : ℚ
  detect_time_last : ℚ
deriving DecidableEq, Repr

/-- The statistics part of `parse_report` (parsey.py lines 116-234):
classify the reported crashes, compute the expectation, the rate, the
verdict and the timing statistics.  `none` models the `ZeroDivisionError`
that aborts the parse when the expectation is zero (line 160 runs before
the verdict and the timing statistics are computed). -/
def parseReportCore (inp : RunInput) : Option RunStats :=
  let m := scheduledMapOf inp
  let cls := classifiedOf inp
  let nScheduled := inp.expected_crashes.length
  let nExpected := expectedDetections inp.simulate_catastrophe nScheduled inp.n_nodes
  let nDetected := cls.correct.length
  let nDuplicated := cls.duplicated.length
  let nWrong := cls.wrong.length
  match rateDetected nDetected nExpected with
  | none => none
  | some rate =>
    let delays := delaysOf m cls.correct
    some {
      correct := correctVerdict nExpected nDetected nDuplicated nWrong inp.n_reappeared
      n_scheduled := nScheduled
      n_expected_detected := nExpected
      n_correctly_detected := nDetected
      n_duplicated := nDuplicated
      n_wrong := nWrong
      n_reappeared := inp.n_reappeared
      rate_detected := rate
      detect_time_average := meanOrSentinel delays
      detect_time_first := minOrSentinel (cls.correct.map Prod.snd)
      detect_time_last := maxOrSentinel (cls.correct.map Prod.snd)
    }

/-- The delay sample of a run: the delays of the retained correct
detections, in insertion order. -/
def delaySampleOf (inp : RunInput) : List ℚ :=
  delaysOf (scheduledMapOf inp) (classifiedOf inp).correct

/-- The scenario record of the spec's testable properties: 5 nodes,
scheduled crashes A@10 and B@20, reports (A by C at 12), (B by D at 25),
(A by E at 15), sequential model (A,B,C,D,E encoded as 0,1,2,3,4). -/
def scenarioInput : RunInput :=
  { n_nodes := 5
    simulate_catastrophe := false
    expected_crashes := [⟨0, 10⟩, ⟨1, 20⟩]
    reported_crashes := [⟨0, 2, 12⟩, ⟨1, 3, 25⟩, ⟨0, 4, 15⟩]
    n_reappeared := 0 }

/-- A run with one scheduled crash and no reports: the classifier retains
nothing, so every timing statistic is the `-1` sentinel. -/
def emptySampleInput : RunInput :=
  { n_nodes := 3
    simulate_catastrophe := false
    expected_crashes := [⟨0, 10⟩]
    reported_crashes := []
    n_reappeared := 0 }

/-- The statistics the engine computes for `emptySampleInput`. -/
def emptySampleStats : RunStats :=
  { correct := false
    n_scheduled := 1
    n_expected_detected := 2
    n_correctly_detected := 0
    n_duplicated := 0
    n_wrong := 0
    n_reappeared := 0
    rate_detected := 0
    detect_time_average := -1
    detect_time_first := -1
    detect_time_last := -1 }

/-- A run with one scheduled crash and one correct report: the delay
sample is the singleton `[2]`. -/
def singleSampleInput : RunInput :=
  { n_nodes := 3
    simulate_catastrophe := false
    expected_crashes := [⟨0, 10⟩]
    reported_crashes := [⟨0, 1, 12⟩]
    n_reappeared := 0 }

/-- The statistics the engine computes for `singleSampleInput`. -/
def singleSampleStats : RunStats :=
  { correct := false
    n_scheduled := 1
    n_expected_detected := 2
    n_correctly_detected := 1
    n_duplicated := 0
    n_wrong := 0
    n_reappeared := 0
    rate_detected := 1/2
    detect_time_average := 2
    detect_time_first := 12
    detect_time_last := 12 }

/-- A run whose scheduled-crash list names node 0 twice, with two
different deltas. -/
def duplicateScheduledInput : RunInput :=
  { n_nodes := 5
    simulate_catastrophe := false
    expected_crashes := [⟨0, 10⟩, ⟨0, 20⟩]
    reported_crashes := []
    n_reappeared := 0 }

/-- A catastrophe run in which every node is scheduled to crash. -/
def allCrashInput : RunInput :=
  { n_nodes := 3
    simulate_catastrophe := true
    expected_crashes := [⟨0, 5⟩, ⟨1, 6⟩, ⟨2, 7⟩]
    reported_crashes := []
    n_reappeared := 0 }

/-! ## Helper lemmas -/

/-- The sequential closed form is the sum of `n_nodes - i` over the crash
sequence `i = 1 .. n_scheduled` (the spec's derivation of the formula). -/
theorem seq_closed_form_eq_sum (s n : ℕ) :
    (s : ℚ) * (n : ℚ) - (s : ℚ) * ((s : ℚ) + 1) / 2
      = ∑ i in Finset.Icc 1 s, ((n : ℚ) - (i : ℚ)) := by
  induction s with
  | zero => simp
  | succ k ih =>
    rw [Finset.sum_Icc_succ_top (Nat.succ_le_succ (Nat.zero_le k)), ← ih]
    push_cast
    ring

/-- `claim2`: the expectation model computes the claimed closed forms:
for `n_scheduled ≤ n_nodes`, the sequential (catastrophe off) expectation
is `n_scheduled * n_nodes - n_scheduled * (n_scheduled + 1) / 2`, the
catastrophe expectation is `n_scheduled * (n_nodes - n_scheduled)`; the
sequential form moreover agrees with the sum it is derived from. -/
theorem claim2_expected_detections (s n : ℕ) (_h : s ≤ n) :
    expectedDetections false s n
        = (s : ℚ) * (n : ℚ) - (s : ℚ) * ((s : ℚ) + 1) / 2 ∧
      expectedDetections true s n = (s : ℚ) * ((n : ℚ) - (s : ℚ)) ∧
      expectedDetections false s n = ∑ i in Finset.Icc 1 s, ((n : ℚ) - (i : ℚ)) := by
  refine ⟨rfl, rfl, ?_⟩
  rw [expectedDetections]
  simp only [Bool.false_eq_true, if_false]
  exact seq_closed_form_eq_sum s n

/-- Witness for `claim2_expected_detections` at `n_scheduled = 2`,
`n_nodes = 5`. -/
theorem claim2_witness :
    expectedDetections false 2 5 = 7 ∧ expectedDetections true 2 5 = 6 := by
  obtain ⟨h1, h2, -⟩ := claim2_expected_detections 2 5 (by norm_num)
  rw [h1, h2]
  norm_num


/-- Unfolding `rateDetected` when the expectation is nonzero. -/
theorem rateDetected_of_ne (nd : ℕ) (ne : ℚ) (h : ne ≠ 0) :
    rateDetected nd ne = some ((nd : ℚ) / ne) := by
  rw [rateDetected, if_neg h]

/-- Unfolding `rateDetected` when the expectation is zero. -/
theorem rateDetected_of_eq (nd : ℕ) (ne : ℚ) (h : ne = 0) :
    rateDetected nd ne = none := by
  rw [rateDetected, if_pos h]

/-- When the expectation is nonzero, `parseReportCore` succeeds and each
statistics field is the corresponding component computation. -/
theorem parseReportCore_of_ne (inp : RunInput)
    (h : expectedDetections inp.simulate_catastrophe inp.expected_crashes.length
      inp.n_nodes ≠ 0) :
    parseReportCore inp = some
      { correct := correctVerdict
          (expectedDetections inp.simulate_catastrophe inp.expected_crashes.length inp.n_nodes)
          (classifiedOf inp).correct.length (classifiedOf inp).duplicated.length
          (classifiedOf inp).wrong.length inp.n_reappeared
        n_scheduled := inp.expected_crashes.length
        n_expected_detected :=
          expectedDetections inp.simulate_catastrophe inp.expected_crashes.length inp.n_nodes
        n_correctly_detected := (classifiedOf inp).correct.length
        n_duplicated := (classifiedOf inp).duplicated.length
        n_wrong := (classifiedOf inp).wrong.length
        n_reappeared := inp.n_reappeared
        rate_detected := ((classifiedOf inp).correct.length : ℚ) /
          expectedDetections inp.simulate_catastrophe inp.expected_crashes.length inp.n_nodes
        detect_time_average := meanOrSentinel (delaySampleOf inp)
        detect_time_first := minOrSentinel ((classifiedOf inp).correct.map Prod.snd)
        detect_time_last := maxOrSentinel ((classifiedOf inp).correct.map Prod.snd) } := by
  rw [parseReportCore, rateDetected_of_ne _ _ h]
  rfl

/-- When the expectation is zero, `parseReportCore` fails (the Python
code raises `ZeroDivisionError` at the rate computation). -/
theorem parseReportCore_of_eq (inp : RunInput)
    (h : expectedDetections inp.simulate_catastrophe inp.expected_crashes.length
      inp.n_nodes = 0) :
    parseReportCore inp = none := by
  rw [parseReportCore, rateDetected_of_eq _ _ h]

/-- The engine's full output on the scenario record. -/
theorem scenario_run_stats : parseReportCore scenarioInput = some
      { correct := false
        n_scheduled := 2
        n_expected_detected := 7
        n_correctly_detected := 3
        n_duplicated := 0
        n_wrong := 0
        n_reappeared := 0
        rate_detected := 3/7
        detect_time_average := 4
        detect_time_first := 12
        detect_time_last := 25 } := by
  have hexp : expectedDetections scenarioInput.simulate_catastrophe
      scenarioInput.expected_crashes.length scenarioInput.n_nodes = 7 := by
    norm_num [expectedDetections, scenarioInput]
  have hcls : classifiedOf scenarioInput =
      { correct := [((0, 2), 12), ((1, 3), 25), ((0, 4), 15)],
        duplicated := [], wrong := [] } := rfl
  have hdel : delaySampleOf scenarioInput = [2, 5, 5] := by
    show delaysOf [(0, 10), (1, 20)] [((0, 2), 12), ((1, 3), 25), ((0, 4), 15)] = [2, 5, 5]
    simp [delaysOf, lookupKey, List.find?]
    norm_num
  rw [parseReportCore_of_ne scenarioInput (by rw [hexp]; norm_num)]
  rw [hexp, hcls, hdel]
  simp only [Option.some.injEq]
  simp only [RunStats.mk.injEq]
  norm_num [correctVerdict, meanOrSentinel, minOrSentinel, maxOrSentinel,
    min_def, max_def, scenarioInput, List.cons_ne_nil]

/-- `claim4` fails on the code: the scenario's sequential expectation is
`2 * 5 - 2 * 3 / 2 = 7`, not `10`, the report (A by E at 15) is a third
correct detection (its key (A,E) differs from (A,C)), not a duplicate,
and the rate is therefore `3/7`, not `0.2`. -/
theorem claim4_counterexample :
    (parseReportCore scenarioInput).map RunStats.n_expected_detected ≠ some 10 ∧
    (classifiedOf scenarioInput).duplicated ≠ [⟨0, 4, 15⟩] ∧
    (parseReportCore scenarioInput).map RunStats.rate_detected ≠ some (1/5) := by
  rw [scenario_run_stats]
  refine ⟨by norm_num, by decide, by norm_num⟩

/-- `claim4` amended: on the scenario record the engine computes
expectation `7`, retains all three reports as correct detections
`{(A,C): 12, (B,D): 25, (A,E): 15}` (the key (A,E) differs from (A,C), so
the third report is not a duplicate), no duplicated and no wrong reports,
rate `3/7`, verdict false (`3 ≠ 7`), delay sample `[2, 5, 5]` with mean
`4`. -/
theorem claim4_amended_scenario :
    parseReportCore scenarioInput = some
      { correct := false
        n_scheduled := 2
        n_expected_detected := 7
        n_correctly_detected := 3
        n_duplicated := 0
        n_wrong := 0
        n_reappeared := 0
        rate_detected := 3/7
        detect_time_average := 4
        detect_time_first := 12
        detect_time_last := 25 } ∧
    (classifiedOf scenarioInput).correct
        = [((0, 2), 12), ((1, 3), 25), ((0, 4), 15)] ∧
    (classifiedOf scenarioInput).duplicated = [] ∧
    (classifiedOf scenarioInput).wrong = [] ∧
    delaySampleOf scenarioInput = [2, 5, 5] ∧
    meanOrSentinel (delaySampleOf scenarioInput) = 4 := by
  have hdel : delaySampleOf scenarioInput = [2, 5, 5] := by
    show delaysOf [(0, 10), (1, 20)] [((0, 2), 12), ((1, 3), 25), ((0, 4), 15)] = [2, 5, 5]
    simp [delaysOf, lookupKey, List.find?]
    norm_num
  refine ⟨scenario_run_stats, rfl, rfl, rfl, hdel, ?_⟩
  rw [hdel]
  norm_num [meanOrSentinel, List.cons_ne_nil]

/-- `claim5` fails on the code: at `n_scheduled = n_nodes = 3` the claim
asserts the two expectations coincide, but the catastrophe model gives
`3 * (3 - 3) = 0` while the sequential model gives `3 * 3 - 3 * 4 / 2 = 3`. -/
theorem claim5_counterexample :
    ((3 : ℕ) = 0 ∨ (3 : ℕ) = 3) ∧
    expectedDetections true 3 3 ≠ expectedDetections false 3 3 := by
  refine ⟨Or.inr rfl, ?_⟩
  norm_num [expectedDetections]

/-- `claim5` amended: for `n_scheduled ≤ n_nodes`, the catastrophe-model
expectation equals the sequential-model expectation exactly when
`n_scheduled` is `0` or `1` (not `0` or `n_nodes`): their difference is
`n_scheduled * (n_scheduled - 1) / 2`. -/
theorem claim5_amended_coincidence (s n : ℕ) (h : s ≤ n) :
    expectedDetections true s n = expectedDetections false s n ↔ (s = 0 ∨ s = 1) := by
  rw [expectedDetections, expectedDetections]
  simp only [if_true, Bool.false_eq_true, if_false]
  constructor
  · intro heq
    have hq2 : (s : ℚ) * ((s : ℚ) - 1) = 0 := by linear_combination (-2 : ℚ) * heq
    rcases mul_eq_zero.mp hq2 with h0 | h1
    · exact Or.inl (Nat.cast_eq_zero.mp h0)
    · right
      have h2 : (s : ℚ) = 1 := by linarith
      exact Nat.cast_eq_one.mp h2
  · rintro (rfl | rfl) <;> push_cast <;> ring

/-- Witness for `claim5_amended_coincidence` at `n_scheduled = 1`,
`n_nodes = 5`: the two models coincide there. -/
theorem claim5_witness :
    expectedDetections true 1 5 = expectedDetections false 1 5 :=
  (claim5_amended_coincidence 1 5 (by norm_num)).mpr (Or.inr rfl)

/-- `claim6` fails on the code: at `n_nodes = 10` both `6` and `7` exceed
`n_nodes / 2 = 5`, yet the sequential expectation grows from `39` to `42`
between `n_scheduled = 6` and `n_scheduled = 7`: it is not non-increasing
past `n_nodes / 2`. -/
theorem claim6_counterexample :
    ((10 : ℚ) / 2 < 6 ∧ (10 : ℚ) / 2 < 7 ∧ (6 : ℕ) ≤ 7 ∧ (7 : ℕ) ≤ 10) ∧
    expectedDetections false 6 10 = 39 ∧
    expectedDetections false 7 10 = 42 ∧
    expectedDetections false 6 10 < expectedDetections false 7 10 := by
  norm_num [expectedDetections]

/-- `claim6` amended: the sequential expectation is monotonically
non-decreasing in `n_nodes` for every fixed `n_scheduled`, and, for every
fixed `n_nodes`, it is also non-decreasing (never non-increasing) in
`n_scheduled` on the whole admissible range `n_scheduled ≤ n_nodes`: the
step from `s` to `s + 1` changes it by `n_nodes - s - 1 ≥ 0`. -/
theorem claim6_amended_monotonicity :
    (∀ s n n' : ℕ, n ≤ n' →
      expectedDetections false s n ≤ expectedDetections false s n') ∧
    (∀ n s s' : ℕ, s ≤ s' → s' ≤ n →
      expectedDetections false s n ≤ expectedDetections false s' n) := by
  constructor
  · intro s n n' hnn
    rw [expectedDetections, expectedDetections]
    simp only [Bool.false_eq_true, if_false]
    have hc : (n : ℚ) ≤ (n' : ℚ) := by exact_mod_cast hnn
    have hs : (0 : ℚ) ≤ (s : ℚ) := Nat.cast_nonneg s
    nlinarith [mul_le_mul_of_nonneg_left hc hs]
  · intro n s s' hss hs'n
    rcases Nat.eq_or_lt_of_le hss with rfl | hlt
    · exact le_refl _
    rw [expectedDetections, expectedDetections]
    simp only [Bool.false_eq_true, if_false]
    have h1 : (s : ℚ) + 1 ≤ (s' : ℚ) := by exact_mod_cast hlt
    have h2 : (s' : ℚ) ≤ (n : ℚ) := by exact_mod_cast hs'n
    have h3 : (0 : ℚ) ≤ (s' : ℚ) - (s : ℚ) := by linarith
    have h4 : (0 : ℚ) ≤ 2 * (n : ℚ) - (s : ℚ) - (s' : ℚ) - 1 := by linarith
    nlinarith [mul_nonneg h3 h4]
/-- If the first entry of a list fails the predicate, `find?` continues on
the tail. -/
theorem find?_cons_of_neg {α : Type} (p : α → Bool) (x : α) (l : List α)
    (h : p x = false) : (x :: l).find? p = l.find? p := by
  simp [List.find?, h]

/-- After a Python dict update of key `k`, looking up `k` yields the new
value. -/
theorem lookupKey_dictInsert_self (m : List (NodeId × ℚ)) (k : NodeId) (v : ℚ) :
    lookupKey (dictInsert m k v) k = some v := by
  rw [dictInsert]
  by_cases hc : containsKey m k
  · rw [if_pos hc]
    induction m with
    | nil => simp [containsKey] at hc
    | cons p t ih =>
      by_cases hp : p.1 == k
      · have hk : (k, v).1 == k := by simp
        simp only [List.map_cons, hp, if_pos]
        simp [lookupKey, List.find?]
      · have hct : containsKey t k := by
          simp only [containsKey, List.any_cons, hp, Bool.false_or] at hc
          exact hc
        have := ih hct
        simp only [List.map_cons, hp, if_neg, Bool.false_eq_true, if_false]
        rw [lookupKey] at this ⊢
        rw [find?_cons_of_neg _ _ _ (by simpa using hp)]
        exact this
  · rw [if_neg hc]
    have hnone : m.find? (fun p => p.1 == k) = none := by
      rw [List.find?_eq_none]
      intro x hx
      intro hxk
      exact hc (List.any_eq_true.mpr ⟨x, hx, hxk⟩)
    rw [lookupKey, List.find?_append, hnone]
    simp [List.find?]

/-- A dict comprehension over `es ++ [e]` is the comprehension over `es`
followed by one update with `e`. -/
theorem expectedCrashesMap_append (es : List ScheduledCrash) (e : ScheduledCrash) :
    expectedCrashesMap (es ++ [e]) = dictInsert (expectedCrashesMap es) e.node e.delta := by
  rw [expectedCrashesMap, List.foldl_append]
  rfl

/-- `claim9` fails on the code: a record whose scheduled-crash list names
node 0 twice (deltas 10 then 20) is processed without any failure, the
map retains the later delta 20, and `n_scheduled` counts both entries. -/
theorem claim9_counterexample :
    (parseReportCore duplicateScheduledInput).isSome = true ∧
    lookupKey (scheduledMapOf duplicateScheduledInput) 0 = some 20 ∧
    (parseReportCore duplicateScheduledInput).map RunStats.n_scheduled = some 2 := by
  have hexp : expectedDetections duplicateScheduledInput.simulate_catastrophe
      duplicateScheduledInput.expected_crashes.length duplicateScheduledInput.n_nodes = 7 := by
    norm_num [expectedDetections, duplicateScheduledInput]
  rw [parseReportCore_of_ne duplicateScheduledInput (by rw [hexp]; norm_num)]
  refine ⟨rfl, rfl, rfl⟩

/-- `claim9` amended: duplicate scheduled-crash node ids are not rejected:
there is no `MalformedRecord` condition anywhere in the engine.  The dict
comprehension silently overwrites (the last entry's delta wins for its
node), and processing fails only when the expected-detections value is
zero (the rate's division by zero) — never because of duplicate node ids. -/
theorem claim9_amended_silent_overwrite :
    (∀ (es : List ScheduledCrash) (e : ScheduledCrash),
      lookupKey (expectedCrashesMap (es ++ [e])) e.node = some e.delta) ∧
    (∀ inp : RunInput, parseReportCore inp = none ↔
      expectedDetections inp.simulate_catastrophe inp.expected_crashes.length
        inp.n_nodes = 0) := by
  constructor
  · intro es e
    rw [expectedCrashesMap_append]
    exact lookupKey_dictInsert_self _ _ _
  · intro inp
    constructor
    · intro hnone
      by_contra h0
      rw [parseReportCore_of_ne inp h0] at hnone
      exact Option.noConfusion hnone
    · exact parseReportCore_of_eq inp

/-- `claim10`: in catastrophe mode with every node scheduled to crash
(`n_scheduled = n_nodes > 0`) the expectation `n_scheduled * (n_nodes -
n_scheduled)` is `0`, the rate computation divides by zero (`none`, the
raised `ZeroDivisionError`), and the record's processing fails — so the
zero-expectation failure is not confined to `n_scheduled = 0`. -/
theorem claim10_catastrophe_division_by_zero (inp : RunInput)
    (hcat : inp.simulate_catastrophe = true)
    (hall : inp.expected_crashes.length = inp.n_nodes)
    (hpos : 0 < inp.n_nodes) :
    0 < inp.expected_crashes.length ∧
    expectedDetections inp.simulate_catastrophe inp.expected_crashes.length
      inp.n_nodes = 0 ∧
    rateDetected (classifiedOf inp).correct.length
      (expectedDetections inp.simulate_catastrophe inp.expected_crashes.length
        inp.n_nodes) = none ∧
    parseReportCore inp = none := by
  have h0 : expectedDetections inp.simulate_catastrophe inp.expected_crashes.length
      inp.n_nodes = 0 := by
    rw [hcat, hall, expectedDetections]
    simp
  exact ⟨hall ▸ hpos, h0, rateDetected_of_eq _ _ h0, parseReportCore_of_eq inp h0⟩

/-- Witness for `claim10_catastrophe_division_by_zero`: the catastrophe
run with 3 nodes and 3 scheduled crashes. -/
theorem claim10_witness :
    0 < allCrashInput.expected_crashes.length ∧
    expectedDetections allCrashInput.simulate_catastrophe
      allCrashInput.expected_crashes.length allCrashInput.n_nodes = 0 ∧
    rateDetected (classifiedOf allCrashInput).correct.length
      (expectedDetections allCrashInput.simulate_catastrophe
        allCrashInput.expected_crashes.length allCrashInput.n_nodes) = none ∧
    parseReportCore allCrashInput = none :=
  claim10_catastrophe_division_by_zero allCrashInput rfl rfl (by norm_num [allCrashInput])
/-- The boolean verdict is true exactly when all four conditions hold. -/
theorem correctVerdict_eq_true_iff (ne : ℚ) (nd ndup nw nr : ℕ) :
    correctVerdict ne nd ndup nw nr = true ↔
      (ne = (nd : ℚ) ∧ ndup = 0 ∧ nw = 0 ∧ nr = 0) := by
  simp [correctVerdict, and_assoc]

/-- `claim3`: for every successfully processed run record, the boolean
`correct` verdict is true iff the retained correct-detection count equals
the expected-detections value exactly, there are no duplicated reports,
no wrong reports, and no reappeared nodes. -/
theorem claim3_verdict (inp : RunInput) (st : RunStats)
    (h : parseReportCore inp = some st) :
    st.correct = true ↔
      (st.n_expected_detected = (st.n_correctly_detected : ℚ) ∧
       st.n_duplicated = 0 ∧ st.n_wrong = 0 ∧ st.n_reappeared = 0) := by
  by_cases h0 : expectedDetections inp.simulate_catastrophe
      inp.expected_crashes.length inp.n_nodes = 0
  · rw [parseReportCore_of_eq inp h0] at h
    exact Option.noConfusion h
  · rw [parseReportCore_of_ne inp h0] at h
    obtain rfl := (Option.some.injEq _ _).mp h.symm
    exact correctVerdict_eq_true_iff _ _ _ _ _

/-- Witness for `claim3_verdict` on the run with one scheduled crash and
no reports: the verdict is false because `0 ≠ 2` expected; instantiating
the equivalence at that record's statistics. -/
theorem claim3_witness :
    emptySampleStats.correct = true ↔
      (emptySampleStats.n_expected_detected = (emptySampleStats.n_correctly_detected : ℚ) ∧
       emptySampleStats.n_duplicated = 0 ∧ emptySampleStats.n_wrong = 0 ∧
       emptySampleStats.n_reappeared = 0) :=
  claim3_verdict emptySampleInput emptySampleStats (by
    have hexp : expectedDetections emptySampleInput.simulate_catastrophe
        emptySampleInput.expected_crashes.length emptySampleInput.n_nodes = 2 := by
      norm_num [expectedDetections, emptySampleInput]
    rw [parseReportCore_of_ne emptySampleInput (by rw [hexp]; norm_num), hexp]
    norm_num [emptySampleStats, correctVerdict, meanOrSentinel, minOrSentinel,
      maxOrSentinel, emptySampleInput, delaySampleOf, delaysOf, classifiedOf,
      classify, classifyFrom, scheduledMapOf, expectedCrashesMap, dictInsert,
      containsKey, rateDetected])

/-- `claim7`: for every successfully processed run whose retained
correct-detection set is empty, the mean, stdev, first and last detection
statistics are all the sentinel `-1` (no error, no NaN); for every run
whose delay sample is a singleton `[d]`, the mean is `d` and the stdev is
the sentinel `-1`. -/
theorem claim7_degenerate_sample_sentinels (inp : RunInput) (st : RunStats)
    (h : parseReportCore inp = some st) :
    ((classifiedOf inp).correct = [] →
      st.detect_time_average = -1 ∧ stdevOrSentinel (delaySampleOf inp) = (-1 : ℝ) ∧
      st.detect_time_first = -1 ∧ st.detect_time_last = -1) ∧
    (∀ d : ℚ, delaySampleOf inp = [d] →
      st.detect_time_average = d ∧ stdevOrSentinel (delaySampleOf inp) = (-1 : ℝ)) := by
  by_cases h0 : expectedDetections inp.simulate_catastrophe
      inp.expected_crashes.length inp.n_nodes = 0
  · rw [parseReportCore_of_eq inp h0] at h
    exact Option.noConfusion h
  · rw [parseReportCore_of_ne inp h0] at h
    obtain rfl := (Option.some.injEq _ _).mp h.symm
    constructor
    · intro hc
      have hd : delaySampleOf inp = [] := by
        rw [delaySampleOf, hc]
        rfl
      refine ⟨?_, ?_, ?_, ?_⟩
      · show meanOrSentinel (delaySampleOf inp) = -1
        rw [hd]
        rfl
      · rw [stdevOrSentinel, if_pos (by rw [hd]; norm_num)]
      · show minOrSentinel ((classifiedOf inp).correct.map Prod.snd) = -1
        rw [hc]
        rfl
      · show maxOrSentinel ((classifiedOf inp).correct.map Prod.snd) = -1
        rw [hc]
        rfl
    · intro d hd
      constructor
      · show meanOrSentinel (delaySampleOf inp) = d
        rw [hd]
        simp [meanOrSentinel]
      · rw [stdevOrSentinel, if_pos (by rw [hd]; norm_num)]

/-- Witness for `claim7_degenerate_sample_sentinels`: the empty-sample run
(no reports at all) hits every `-1` sentinel, and the singleton-sample run
(one correct report, delay 2) has mean `2` and stdev sentinel `-1`. -/
theorem claim7_witness :
    (emptySampleStats.detect_time_average = -1 ∧
     stdevOrSentinel (delaySampleOf emptySampleInput) = (-1 : ℝ) ∧
     emptySampleStats.detect_time_first = -1 ∧
     emptySampleStats.detect_time_last = -1) ∧
    (singleSampleStats.detect_time_average = 2 ∧
     stdevOrSentinel (delaySampleOf singleSampleInput) = (-1 : ℝ)) := by
  have hempty : parseReportCore emptySampleInput = some emptySampleStats := by
    have hexp : expectedDetections emptySampleInput.simulate_catastrophe
        emptySampleInput.expected_crashes.length emptySampleInput.n_nodes = 2 := by
      norm_num [expectedDetections, emptySampleInput]
    rw [parseReportCore_of_ne emptySampleInput (by rw [hexp]; norm_num), hexp]
    norm_num [emptySampleStats, correctVerdict, meanOrSentinel, minOrSentinel,
      maxOrSentinel, emptySampleInput, delaySampleOf, delaysOf, classifiedOf,
      classify, classifyFrom, scheduledMapOf, expectedCrashesMap, dictInsert,
      containsKey]
  have hsingle : parseReportCore singleSampleInput = some singleSampleStats := by
    have hexp : expectedDetections singleSampleInput.simulate_catastrophe
        singleSampleInput.expected_crashes.length singleSampleInput.n_nodes = 2 := by
      norm_num [expectedDetections, singleSampleInput]
    have hcls : classifiedOf singleSampleInput =
        { correct := [((0, 1), 12)], duplicated := [], wrong := [] } := rfl
    have hdel : delaySampleOf singleSampleInput = [2] := by
      show delaysOf [(0, 10)] [((0, 1), 12)] = [2]
      simp [delaysOf, lookupKey, List.find?]
      norm_num
    rw [parseReportCore_of_ne singleSampleInput (by rw [hexp]; norm_num), hexp, hcls, hdel]
    simp only [Option.some.injEq, RunStats.mk.injEq]
    norm_num [singleSampleStats, correctVerdict, meanOrSentinel, minOrSentinel,
      maxOrSentinel, singleSampleInput, List.cons_ne_nil, min_def, max_def]
  refine ⟨(claim7_degenerate_sample_sentinels emptySampleInput emptySampleStats hempty).1 rfl,
    (claim7_degenerate_sample_sentinels singleSampleInput singleSampleStats hsingle).2 2 ?_⟩
  show delaysOf [(0, 10)] [((0, 1), 12)] = [2]
  simp [delaysOf, lookupKey, List.find?]
  norm_num
/-- `claim1`: the classification rule applied to each reported crash, at
any point of the loop over any report sequence.  If the crash's node has
a scheduled delta `sd` with `sd ≤ delta`: when the key (node, reporter)
is not yet in `correct` the pair is inserted there with value `delta`,
otherwise the crash is appended to `duplicated`.  In every other case
(node unscheduled, or `delta` before the scheduled delta) the crash is
appended to `wrong`. -/
theorem claim1_classification_rule (m : List (NodeId × ℚ)) (s : ClassifyState)
    (c : ReportedCrash) :
    (∀ sd : ℚ, lookupKey m c.node = some sd → sd ≤ c.delta →
      (containsKey s.correct (c.node, c.reporter) = false →
        classifyStep m s c =
          { s with correct := s.correct ++ [((c.node, c.reporter), c.delta)] }) ∧
      (containsKey s.correct (c.node, c.reporter) = true →
        classifyStep m s c = { s with duplicated := s.duplicated ++ [c] })) ∧
    ((lookupKey m c.node = none ∨
        ∃ sd : ℚ, lookupKey m c.node = some sd ∧ c.delta < sd) →
      classifyStep m s c = { s with wrong := s.wrong ++ [c] }) := by
  constructor
  · intro sd hsd hle
    have he : isEligible m c = true := by
      rw [isEligible, hsd]
      exact decide_eq_true hle
    constructor
    · intro hnc
      rw [classifyStep, if_pos he, if_pos hnc]
    · intro hc
      rw [classifyStep, if_pos he, if_neg]
      rw [hc]
      simp
  · intro hw
    have he : isEligible m c = false := by
      rcases hw with hn | ⟨sd, hsd, hlt⟩
      · rw [isEligible, hn]
      · rw [isEligible, hsd]
        exact decide_eq_false (not_le.mpr hlt)
    rw [classifyStep, if_neg]
    rw [he]
    simp
/-! ## Order-independent characterizations of the classifier -/

/-- Unfolding one loop iteration. -/
theorem classifyFrom_cons (m : List (NodeId × ℚ)) (s : ClassifyState)
    (c : ReportedCrash) (t : List ReportedCrash) :
    classifyFrom m s (c :: t) = classifyFrom m (classifyStep m s c) t := rfl

/-- An eligible report never touches the `wrong` list. -/
theorem classifyStep_wrong_of_eligible (m : List (NodeId × ℚ)) (s : ClassifyState)
    (c : ReportedCrash) (he : isEligible m c = true) :
    (classifyStep m s c).wrong = s.wrong := by
  rw [classifyStep, if_pos he]
  split <;> rfl

/-- An ineligible report goes to `wrong` and touches nothing else. -/
theorem classifyStep_of_ineligible (m : List (NodeId × ℚ)) (s : ClassifyState)
    (c : ReportedCrash) (he : isEligible m c = false) :
    classifyStep m s c = { s with wrong := s.wrong ++ [c] } := by
  rw [classifyStep, if_neg]
  rw [he]
  simp

/-- An eligible report leaves `correct` and `duplicated` jointly one
entry longer. -/
theorem classifyStep_correct_dup_length_of_eligible (m : List (NodeId × ℚ))
    (s : ClassifyState) (c : ReportedCrash) (he : isEligible m c = true) :
    (classifyStep m s c).correct.length + (classifyStep m s c).duplicated.length
      = s.correct.length + s.duplicated.length + 1 := by
  rw [classifyStep, if_pos he]
  split <;> simp <;> omega

/-- The `wrong` list collects exactly the ineligible reports, in order. -/
theorem classifyFrom_wrong (m : List (NodeId × ℚ)) (rs : List ReportedCrash) :
    ∀ s : ClassifyState,
      (classifyFrom m s rs).wrong = s.wrong ++ rs.filter (fun c => !isEligible m c) := by
  induction rs with
  | nil => intro s; simp [classifyFrom]
  | cons c t ih =>
    intro s
    rw [classifyFrom_cons, ih]
    by_cases he : isEligible m c = true
    · rw [classifyStep_wrong_of_eligible m s c he]
      simp [List.filter_cons, he]
    · have he' : isEligible m c = false := by
        revert he
        cases isEligible m c <;> simp
      rw [classifyStep_of_ineligible m s c he']
      simp [List.filter_cons, he']

/-- `correct` and `duplicated` jointly hold one entry per eligible
report. -/
theorem classifyFrom_correct_dup_length (m : List (NodeId × ℚ)) (rs : List ReportedCrash) :
    ∀ s : ClassifyState,
      (classifyFrom m s rs).correct.length + (classifyFrom m s rs).duplicated.length
        = s.correct.length + s.duplicated.length
          + rs.countP (fun c => isEligible m c) := by
  induction rs with
  | nil => intro s; simp [classifyFrom]
  | cons c t ih =>
    intro s
    rw [classifyFrom_cons, ih]
    by_cases he : isEligible m c = true
    · rw [classifyStep_correct_dup_length_of_eligible m s c he]
      rw [List.countP_cons]
      simp [he]
      omega
    · have he' : isEligible m c = false := by
        revert he
        cases isEligible m c <;> simp
      rw [classifyStep_of_ineligible m s c he']
      rw [List.countP_cons]
      simp [he']

/-- `containsKey` tests membership among the stored keys. -/
theorem containsKey_iff_mem {α β : Type} [BEq α] [LawfulBEq α]
    (l : List (α × β)) (k : α) :
    containsKey l k = true ↔ k ∈ l.map Prod.fst := by
  simp [containsKey, List.any_eq_true, List.mem_map]

/-- A key is retained in `correct` exactly when it was there already or
some eligible report carries it. -/
theorem classifyFrom_mem_correct_keys (m : List (NodeId × ℚ)) (rs : List ReportedCrash) :
    ∀ (s : ClassifyState) (k : DetectionKey),
      k ∈ (classifyFrom m s rs).correct.map Prod.fst ↔
        (k ∈ s.correct.map Prod.fst ∨
          ∃ c ∈ rs, isEligible m c = true ∧ (c.node, c.reporter) = k) := by
  induction rs with
  | nil => intro s k; simp [classifyFrom]
  | cons c t ih =>
    intro s k
    rw [classifyFrom_cons, ih]
    by_cases he : isEligible m c = true
    · rw [classifyStep, if_pos he]
      by_cases hk : containsKey s.correct (c.node, c.reporter) = false
      · rw [if_pos hk]
        simp only [List.map_append, List.mem_append, List.map_cons, List.map_nil,
          List.mem_cons, List.not_mem_nil, or_false, List.mem_singleton]
        constructor
        · rintro ((h1 | h1) | ⟨c', hc', he', hk'⟩)
          · exact Or.inl h1
          · exact Or.inr ⟨c, Or.inl rfl, he, h1.symm⟩
          · exact Or.inr ⟨c', Or.inr hc', he', hk'⟩
        · rintro (h1 | ⟨c', hc' | hc', he', hk'⟩)
          · exact Or.inl (Or.inl h1)
          · subst hc'
            exact Or.inl (Or.inr hk'.symm)
          · exact Or.inr ⟨c', hc', he', hk'⟩
      · rw [if_neg hk]
        have hmem : (c.node, c.reporter) ∈ s.correct.map Prod.fst := by
          rw [← containsKey_iff_mem]
          revert hk
          cases containsKey s.correct (c.node, c.reporter) <;> simp
        simp only [List.mem_cons]
        constructor
        · rintro (h1 | ⟨c', hc', he', hk'⟩)
          · exact Or.inl h1
          · exact Or.inr ⟨c', Or.inr hc', he', hk'⟩
        · rintro (h1 | ⟨c', hc' | hc', he', hk'⟩)
          · exact Or.inl h1
          · subst hc'
            subst hk'
            exact Or.inl hmem
          · exact Or.inr ⟨c', hc', he', hk'⟩
    · have he' : isEligible m c = false := by
        revert he
        cases isEligible m c <;> simp
      rw [classifyStep_of_ineligible m s c he']
      simp only [List.mem_cons]
      constructor
      · rintro (h1 | ⟨c', hc', hel, hk'⟩)
        · exact Or.inl h1
        · exact Or.inr ⟨c', Or.inr hc', hel, hk'⟩
      · rintro (h1 | ⟨c', hc' | hc', hel, hk'⟩)
        · exact Or.inl h1
        · subst hc'
          rw [he'] at hel
          cases hel
        · exact Or.inr ⟨c', hc', hel, hk'⟩

/-- The keys retained in `correct` stay pairwise distinct. -/
theorem classifyFrom_correct_keys_nodup (m : List (NodeId × ℚ)) (rs : List ReportedCrash) :
    ∀ s : ClassifyState, (s.correct.map Prod.fst).Nodup →
      ((classifyFrom m s rs).correct.map Prod.fst).Nodup := by
  induction rs with
  | nil => intro s hs; exact hs
  | cons c t ih =>
    intro s hs
    rw [classifyFrom_cons]
    apply ih
    by_cases he : isEligible m c = true
    · rw [classifyStep, if_pos he]
      by_cases hk : containsKey s.correct (c.node, c.reporter) = false
      · rw [if_pos hk]
        have hnm : (c.node, c.reporter) ∉ s.correct.map Prod.fst := by
          intro hmem
          rw [← containsKey_iff_mem] at hmem
          rw [hk] at hmem
          cases hmem
        simp only [List.map_append, List.map_cons, List.map_nil]
        rw [List.nodup_append]
        refine ⟨hs, List.nodup_singleton _, ?_⟩
        intro a ha hb
        simp only [List.mem_singleton] at hb
        subst hb
        exact hnm ha
      · rw [if_neg hk]
        exact hs
    · have he' : isEligible m c = false := by
        revert he
        cases isEligible m c <;> simp
      rw [classifyStep_of_ineligible m s c he']
      exact hs

/-- `claim8`: for a fixed scheduled-crash set, permuting the reported
crashes leaves the counts of correct, duplicated and wrong reports, the
detection rate and the boolean verdict unchanged (only which report wins
the first-correct slot per key may differ). -/
theorem claim8_permutation_invariance (es : List ScheduledCrash)
    (rs1 rs2 : List ReportedCrash) (hp : rs1.Perm rs2) :
    (classify (expectedCrashesMap es) rs1).correct.length =
      (classify (expectedCrashesMap es) rs2).correct.length ∧
    (classify (expectedCrashesMap es) rs1).duplicated.length =
      (classify (expectedCrashesMap es) rs2).duplicated.length ∧
    (classify (expectedCrashesMap es) rs1).wrong.length =
      (classify (expectedCrashesMap es) rs2).wrong.length ∧
    (∀ ne : ℚ, rateDetected (classify (expectedCrashesMap es) rs1).correct.length ne =
      rateDetected (classify (expectedCrashesMap es) rs2).correct.length ne) ∧
    (∀ (ne : ℚ) (nr : ℕ),
      correctVerdict ne (classify (expectedCrashesMap es) rs1).correct.length
        (classify (expectedCrashesMap es) rs1).duplicated.length
        (classify (expectedCrashesMap es) rs1).wrong.length nr =
      correctVerdict ne (classify (expectedCrashesMap es) rs2).correct.length
        (classify (expectedCrashesMap es) rs2).duplicated.length
        (classify (expectedCrashesMap es) rs2).wrong.length nr) := by
  have hnodup1 := classifyFrom_correct_keys_nodup (expectedCrashesMap es) rs1
    ⟨[], [], []⟩ (by simp)
  have hnodup2 := classifyFrom_correct_keys_nodup (expectedCrashesMap es) rs2
    ⟨[], [], []⟩ (by simp)
  have hkeysperm : ((classify (expectedCrashesMap es) rs1).correct.map Prod.fst).Perm
      ((classify (expectedCrashesMap es) rs2).correct.map Prod.fst) := by
    rw [classify, classify]
    rw [List.perm_ext_iff_of_nodup hnodup1 hnodup2]
    intro k
    rw [classifyFrom_mem_correct_keys, classifyFrom_mem_correct_keys]
    simp only [List.map_nil, List.not_mem_nil, false_or]
    constructor
    · rintro ⟨c, hc, hel, hk⟩
      exact ⟨c, hp.mem_iff.mp hc, hel, hk⟩
    · rintro ⟨c, hc, hel, hk⟩
      exact ⟨c, hp.mem_iff.mpr hc, hel, hk⟩
  have hcorrect : (classify (expectedCrashesMap es) rs1).correct.length =
      (classify (expectedCrashesMap es) rs2).correct.length := by
    have h1 := hkeysperm.length_eq
    rwa [List.length_map, List.length_map] at h1
  have hlen1 : (classifyFrom (expectedCrashesMap es) ⟨[], [], []⟩ rs1).correct.length
      + (classifyFrom (expectedCrashesMap es) ⟨[], [], []⟩ rs1).duplicated.length
      = rs1.countP (fun c => isEligible (expectedCrashesMap es) c) := by
    simpa using classifyFrom_correct_dup_length (expectedCrashesMap es) rs1 ⟨[], [], []⟩
  have hlen2 : (classifyFrom (expectedCrashesMap es) ⟨[], [], []⟩ rs2).correct.length
      + (classifyFrom (expectedCrashesMap es) ⟨[], [], []⟩ rs2).duplicated.length
      = rs2.countP (fun c => isEligible (expectedCrashesMap es) c) := by
    simpa using classifyFrom_correct_dup_length (expectedCrashesMap es) rs2 ⟨[], [], []⟩
  have hcount := hp.countP_eq (fun c => isEligible (expectedCrashesMap es) c)
  have hdup : (classify (expectedCrashesMap es) rs1).duplicated.length =
      (classify (expectedCrashesMap es) rs2).duplicated.length := by
    rw [classify, classify] at hcorrect ⊢
    omega
  have hwrong : (classify (expectedCrashesMap es) rs1).wrong.length =
      (classify (expectedCrashesMap es) rs2).wrong.length := by
    have hfil := (hp.filter (fun c => !isEligible (expectedCrashesMap es) c)).length_eq
    rw [classify, classify, classifyFrom_wrong, classifyFrom_wrong]
    simpa using hfil
  refine ⟨hcorrect, hdup, hwrong, ?_, ?_⟩
  · intro ne
    rw [hcorrect]
  · intro ne nr
    rw [hcorrect, hdup, hwrong]

/-- Witness for `claim8_permutation_invariance`: the scenario's report
list against its reversal. -/
theorem claim8_witness :
    (classify (expectedCrashesMap scenarioInput.expected_crashes)
        scenarioInput.reported_crashes).correct.length =
      (classify (expectedCrashesMap scenarioInput.expected_crashes)
        scenarioInput.reported_crashes.reverse).correct.length ∧
    (classify (expectedCrashesMap scenarioInput.expected_crashes)
        scenarioInput.reported_crashes).duplicated.length =
      (classify (expectedCrashesMap scenarioInput.expected_crashes)
        scenarioInput.reported_crashes.reverse).duplicated.length ∧
    (classify (expectedCrashesMap scenarioInput.expected_crashes)
        scenarioInput.reported_crashes).wrong.length =
      (classify (expectedCrashesMap scenarioInput.expected_crashes)
        scenarioInput.reported_crashes.reverse).wrong.length ∧
    (∀ ne : ℚ, rateDetected (classify (expectedCrashesMap scenarioInput.expected_crashes)
        scenarioInput.reported_crashes).correct.length ne =
      rateDetected (classify (expectedCrashesMap scenarioInput.expected_crashes)
        scenarioInput.reported_crashes.reverse).correct.length ne) ∧
    (∀ (ne : ℚ) (nr : ℕ),
      correctVerdict ne (classify (expectedCrashesMap scenarioInput.expected_crashes)
          scenarioInput.reported_crashes).correct.length
        (classify (expectedCrashesMap scenarioInput.expected_crashes)
          scenarioInput.reported_crashes).duplicated.length
        (classify (expectedCrashesMap scenarioInput.expected_crashes)
          scenarioInput.reported_crashes).wrong.length nr =
      correctVerdict ne (classify (expectedCrashesMap scenarioInput.expected_crashes)
          scenarioInput.reported_crashes.reverse).correct.length
        (classify (expectedCrashesMap scenarioInput.expected_crashes)
          scenarioInput.reported_crashes.reverse).duplicated.length
        (classify (expectedCrashesMap scenarioInput.expected_crashes)
          scenarioInput.reported_crashes.reverse).wrong.length nr) :=
  claim8_permutation_invariance scenarioInput.expected_crashes
    scenarioInput.reported_crashes scenarioInput.reported_crashes.reverse
    (List.reverse_perm _).symm
